import Mathlib

/-!
Verification of the starkmoat core: the group-root registry state machine
(`contracts/starkmoat_contracts/src/lib.cairo`) and the nullifier
derivation / replay-guard logic of the web client
(`apps/web/src/App.tsx`), embedded shallowly in Lean.
-/

/-! ## Hashing pipeline (apps/web/src/App.tsx) -/

/-- The STARK prime `P`, from the `STARK_FIELD_PRIME` constant in App.tsx. -/
def STARK_FIELD_PRIME : Nat :=
  0x800000000000011000000000000000000000000000000000000000000000001

/-- `bytesToBigInt` from App.tsx: folds over the bytes with
`value = (value << 8) + byte`, starting from 0. -/
def bytesToBigInt (bytes : List Nat) : Nat :=
  bytes.foldl (fun value byte => value * 256 + byte) 0

/-- UTF-8 encoding of a single Unicode scalar value, as performed by the
browser `TextEncoder` in App.tsx. -/
def utf8EncodeChar (c : Char) : List Nat :=
  let n := c.toNat
  if n < 0x80 then [n]
  else if n < 0x800 then [0xC0 + n / 64, 0x80 + n % 64]
  else if n < 0x10000 then
    [0xE0 + n / 4096, 0x80 + (n / 64) % 64, 0x80 + n % 64]
  else
    [0xF0 + n / 262144, 0x80 + (n / 4096) % 64, 0x80 + (n / 64) % 64, 0x80 + n % 64]

/-- The byte string produced by `new TextEncoder().encode(s)` in App.tsx. -/
def strBytes (s : String) : List Nat :=
  s.data.foldr (fun c acc => utf8EncodeChar c ++ acc) []

/-- JavaScript `parts.join(sep)` as used in App.tsx (`parts.join('|')`):
the first element, then for each further element the separator and the
element are appended. -/
def jsJoin (sep : String) : List String → String
  | [] => ""
  | p :: ps => ps.foldl (fun acc q => acc ++ sep ++ q) p

/-! ### SHA-256 (the `crypto.subtle.digest` call in `hashToFelt`),
implemented over `Nat` with 32-bit words. -/

/-- Truncation to a 32-bit word. -/
def w32 (n : Nat) : Nat := n % 4294967296

/-- Right rotation of a 32-bit word by `b` bits. -/
def rotr (b x : Nat) : Nat := x / 2 ^ b + x % 2 ^ b * 2 ^ (32 - b)

/-- SHA-256 small sigma 0. -/
def ssig0 (x : Nat) : Nat := rotr 7 x ^^^ rotr 18 x ^^^ x / 2 ^ 3

/-- SHA-256 small sigma 1. -/
def ssig1 (x : Nat) : Nat := rotr 17 x ^^^ rotr 19 x ^^^ x / 2 ^ 10

/-- SHA-256 big sigma 0. -/
def bsig0 (x : Nat) : Nat := rotr 2 x ^^^ rotr 13 x ^^^ rotr 22 x

/-- SHA-256 big sigma 1. -/
def bsig1 (x : Nat) : Nat := rotr 6 x ^^^ rotr 11 x ^^^ rotr 25 x

/-- SHA-256 choice function. -/
def chFn (e f g : Nat) : Nat := (e &&& f) ^^^ ((4294967295 ^^^ e) &&& g)

/-- SHA-256 majority function. -/
def majFn (a b c : Nat) : Nat := (a &&& b) ^^^ (a &&& c) ^^^ (b &&& c)

/-- The 64 SHA-256 round constants. -/
def sha256K : List Nat :=
  [1116352408, 1899447441, 3049323471, 3921009573, 961987163,
   1508970993, 2453635748, 2870763221, 3624381080, 310598401,
   607225278, 1426881987, 1925078388, 2162078206, 2614888103,
   3248222580, 3835390401, 4022224774, 264347078, 604807628,
   770255983, 1249150122, 1555081692, 1996064986, 2554220882,
   2821834349, 2952996808, 3210313671, 3336571891, 3584528711,
   113926993, 338241895, 666307205, 773529912, 1294757372,
   1396182291, 1695183700, 1986661051, 2177026350, 2456956037,
   2730485921, 2820302411, 3259730800, 3345764771, 3516065817,
   3600352804, 4094571909, 275423344, 430227734, 506948616,
   659060556, 883997877, 958139571, 1322822218, 1537002063,
   1747873779, 1955562222, 2024104815, 2227730452, 2361852424,
   2428436474, 2756734187, 3204031479, 3329325298]

/-- The SHA-256 initial hash value. -/
def sha256H0 : List Nat :=
  [1779033703, 3144134277, 1013904242, 2773480762,
   1359893119, 2600822924, 528734635, 1541459225]

/-- Big-endian byte encoding of `v` on `n` bytes. -/
def beBytes : Nat → Nat → List Nat
  | 0, _ => []
  | n + 1, v => beBytes n (v / 256) ++ [v % 256]

/-- SHA-256 padding: append `0x80`, zero bytes up to 56 mod 64, then the
bit length on 8 bytes big-endian. -/
def sha256pad (msg : List Nat) : List Nat :=
  let padLen := (64 - (msg.length + 9) % 64) % 64
  msg ++ [0x80] ++ List.replicate padLen 0 ++ beBytes 8 (8 * msg.length)

/-- Group a byte list into big-endian 32-bit words. -/
def toWords : List Nat → List Nat
  | b0 :: b1 :: b2 :: b3 :: rest =>
    (((b0 * 256 + b1) * 256 + b2) * 256 + b3) :: toWords rest
  | _ => []

/-- Extend the 16-word message schedule by `fuel` further words. -/
def extendSchedule (acc : List Nat) : Nat → List Nat
  | 0 => acc
  | fuel + 1 =>
    let t := acc.length
    let w := w32 (ssig1 (acc.getD (t - 2) 0) + acc.getD (t - 7) 0 +
      ssig0 (acc.getD (t - 15) 0) + acc.getD (t - 16) 0)
    extendSchedule (acc ++ [w]) fuel

/-- SHA-256 working state: the registers a through h. -/
structure Sha256State where
  a : Nat
  b : Nat
  c : Nat
  d : Nat
  e : Nat
  f : Nat
  g : Nat
  h : Nat
deriving Repr, DecidableEq

/-- One SHA-256 compression round with round constant `k` and schedule
word `w`. -/
def sha256Round (st : Sha256State) (k w : Nat) : Sha256State :=
  let t1 := w32 (st.h + bsig1 st.e + chFn st.e st.f st.g + k + w)
  let t2 := w32 (bsig0 st.a + majFn st.a st.b st.c)
  ⟨w32 (t1 + t2), st.a, st.b, st.c, w32 (st.d + t1), st.e, st.f, st.g⟩

/-- The 64 compression rounds, consuming the round constants and the
message schedule in lock step. -/
def compressLoop : List Nat → List Nat → Sha256State → Sha256State
  | k :: ks, w :: ws, st => compressLoop ks ws (sha256Round st k w)
  | _, _, st => st

/-- Compress a single 16-word block into the running hash values. -/
def processBlock (hs ws16 : List Nat) : List Nat :=
  let ws := extendSchedule ws16 48
  match hs with
  | [h0, h1, h2, h3, h4, h5, h6, h7] =>
    let st := compressLoop sha256K ws ⟨h0, h1, h2, h3, h4, h5, h6, h7⟩
    [w32 (h0 + st.a), w32 (h1 + st.b), w32 (h2 + st.c), w32 (h3 + st.d),
     w32 (h4 + st.e), w32 (h5 + st.f), w32 (h6 + st.g), w32 (h7 + st.h)]
  | other => other

/-- Process `n` successive 16-word blocks. -/
def processBlocks : Nat → List Nat → List Nat → List Nat
  | 0, hs, _ => hs
  | n + 1, hs, ws => processBlocks n (processBlock hs (ws.take 16)) (ws.drop 16)

/-- SHA-256 of a byte string, as a 32-byte digest. -/
def sha256 (msg : List Nat) : List Nat :=
  let ws := toWords (sha256pad msg)
  let hs := processBlocks (ws.length / 16) sha256H0 ws
  hs.foldr (fun h acc => beBytes 4 h ++ acc) []

/-- `hashToFelt` from App.tsx, at the level of field-element values: join
the parts with `|`, UTF-8 encode, SHA-256, fold the digest bytes with
`bytesToBigInt`, reduce modulo the STARK prime.  (The source additionally
renders the value as a hex string via `toHexFelt`.) -/
def hashToFelt (parts : List String) : Nat :=
  bytesToBigInt (sha256 (strBytes (jsJoin "|" parts))) % STARK_FIELD_PRIME

/-- `generateSecret` from App.tsx, as a function of the 32 bytes drawn
from `crypto.getRandomValues`: interpret them via `bytesToBigInt` and
reduce modulo the STARK prime. -/
def generateSecret (randomBytes : List Nat) : Nat :=
  bytesToBigInt randomBytes % STARK_FIELD_PRIME

/-- The leaf derivation of App.tsx (`onGenerateSecretAndLeaf`, line 311):
`hashToFelt([nextSecret])`. -/
def deriveLeaf (secret : String) : Nat := hashToFelt [secret]

/-- The action-hash derivation of App.tsx (`onAnonymousAction`, line 346):
`hashToFelt([domain, action, root, walletAddress])`. -/
def deriveActionHash (domain action root actor : String) : Nat :=
  hashToFelt [domain, action, root, actor]

/-- The nullifier derivation of App.tsx (`onAnonymousAction`, line 347):
`hashToFelt([secret, actionHash])`. -/
def deriveNullifier (secret actionHash : String) : Nat :=
  hashToFelt [secret, actionHash]

/-! ### Spec-side reference definitions (§4.2 `HashToField`), written from
the spec's words, to be compared with the source-derived `hashToFelt`. -/

/-- Spec §4.2: "join parts with `|`", as a plain recursion on the list of
parts. -/
def joinParts : List String → String
  | [] => ""
  | [p] => p
  | p :: ps => p ++ "|" ++ joinParts ps

/-- Spec §4.2: "interpret digest as big-endian unsigned integer", written
positionally: the first byte is the most significant. -/
def beNat : List Nat → Nat
  | [] => 0
  | b :: bs => b * 256 ^ bs.length + beNat bs

/-- Spec §4.2 `HashToField`: join parts with `|`, hash the byte string
with SHA-256 (a fixed 256-bit cryptographic digest), interpret the digest
as a big-endian unsigned integer, reduce modulo `P`. -/
def HashToField (parts : List String) : Nat :=
  beNat (sha256 (strBytes (joinParts parts))) % STARK_FIELD_PRIME

/-! ## Replay guard (`onAnonymousAction` in App.tsx) -/

/-- The environment of one `onAnonymousAction` attempt, beyond the used-
nullifier set: whether every non-nullifier template argument has a
non-empty trimmed value (the `callArgs` loop), and the outcome of the
`walletAccount.execute(call)` submission — `Except.ok` is a returned
transaction hash, `Except.error` a thrown rejection (any throw inside the
`try` block after the guard, calldata compilation included, lands in the
same `catch`). -/
structure SubmitEnv where
  argsPresent : Bool
  execute : Except String String
deriving Repr

/-- Observable result of one `onAnonymousAction` attempt. -/
inductive SubmitResult where
  | replayBlocked
  | missingInput
  | submitted (txHash : String)
  | txFailed
deriving Repr, DecidableEq

/-- Result of a run: the status, the used-nullifier set afterwards, and
whether a submission was attempted (`walletAccount.execute` reached). -/
structure ActionRun where
  result : SubmitResult
  used : List String
  attemptedSubmit : Bool
deriving Repr, DecidableEq

/-- The replay-guard slice of `onAnonymousAction` (App.tsx lines 345-397):
if the derived nullifier is already in `usedNullifiersRef.current`, stop
(`Replay blocked`) without touching the set; otherwise build the call
arguments (stopping on a missing input), submit, and only when `execute`
returns successfully add the nullifier to the set; a throw is caught and
leaves the set unchanged. -/
def onAnonymousAction (used : List String) (nullifier : String)
    (env : SubmitEnv) : ActionRun :=
  if used.contains nullifier then
    ⟨.replayBlocked, used, false⟩
  else if !env.argsPresent then
    ⟨.missingInput, used, false⟩
  else
    match env.execute with
    | .ok tx => ⟨.submitted tx, nullifier :: used, true⟩
    | .error _ => ⟨.txFailed, used, true⟩

/-! ## RootRegistry (contracts/starkmoat_contracts/src/lib.cairo) -/

namespace StarkmoatRegistry

/-- The contract storage: `admin : ContractAddress`,
`current_root : felt252`, `accepted_roots : Map<felt252, bool>`.
Addresses and field elements are modelled as `Nat`; the map, written only
with `true`, as the list of roots written so far (reads default to
`false`, i.e. non-membership). -/
structure Storage where
  admin : Nat
  current_root : Nat
  accepted_roots : List Nat
deriving Repr, DecidableEq

/-- The Cairo constructor: asserts `initial_root != 0` (panic message
`'initial root is zero'`), then records the caller as admin, sets
`current_root`, and marks `initial_root` accepted. -/
def deploy (caller initial_root : Nat) : Except String Storage :=
  if initial_root = 0 then .error "initial root is zero"
  else .ok ⟨caller, initial_root, [initial_root]⟩

/-- `set_root`: asserts `new_root != 0` (`'root is zero'`), then
`caller == admin` (`'only admin'`), then `new_root != previous_root`
(`'root unchanged'`); on success writes `current_root` and marks
`new_root` accepted. -/
def set_root (caller new_root : Nat) (s : Storage) : Except String Storage :=
  if new_root = 0 then .error "root is zero"
  else if caller ≠ s.admin then .error "only admin"
  else if new_root = s.current_root then .error "root unchanged"
  else .ok { s with current_root := new_root,
                    accepted_roots := new_root :: s.accepted_roots }

/-- `get_current_root`: reads `current_root`. -/
def get_current_root (s : Storage) : Nat := s.current_root

/-- `is_root_accepted`: reads the `accepted_roots` map (default
`false`). -/
def is_root_accepted (s : Storage) (root : Nat) : Bool :=
  s.accepted_roots.contains root

/-- `get_admin`: reads `admin`. -/
def get_admin (s : Storage) : Nat := s.admin

/-- The state after a `set_root` call: on success the new storage, on a
failed assertion the transaction reverts and the storage is unchanged. -/
def set_root_step (caller new_root : Nat) (s : Storage) : Storage :=
  match set_root caller new_root s with
  | .ok s' => s'
  | .error _ => s

/-- States reachable from a successful deployment through any sequence of
`set_root` calls (successful or reverted; the reads do not mutate). -/
inductive Reachable : Storage → Prop
  | deployed (caller initial_root : Nat) (s : Storage) :
      deploy caller initial_root = .ok s → Reachable s
  | step (caller new_root : Nat) (s : Storage) :
      Reachable s → Reachable (set_root_step caller new_root s)

end StarkmoatRegistry

/-! ## Registry lemmas -/

namespace StarkmoatRegistry

/-- The registry invariant: a non-zero current root, the zero root never
accepted, and the current root accepted. -/
def RegInv (s : Storage) : Prop :=
  s.current_root ≠ 0 ∧ is_root_accepted s 0 = false ∧
    is_root_accepted s s.current_root = true

theorem deploy_ok_iff {caller r : Nat} {s : Storage} :
    deploy caller r = .ok s ↔ r ≠ 0 ∧ s = ⟨caller, r, [r]⟩ := by
  unfold deploy
  split
  · simp_all
  · next hr => simp [eq_comm, hr]

theorem set_root_ok_iff {caller nr : Nat} {s s' : Storage} :
    set_root caller nr s = .ok s' ↔
      nr ≠ 0 ∧ caller = s.admin ∧ nr ≠ s.current_root ∧
      s' = { s with current_root := nr, accepted_roots := nr :: s.accepted_roots } := by
  unfold set_root
  split
  · simp_all
  · split
    · simp_all
    · split
      · simp_all
      · next h1 h2 h3 =>
        simp only [not_not] at h2
        simp [h1, h2, h3, eq_comm]

theorem set_root_step_cases (caller nr : Nat) (s : Storage) :
    set_root_step caller nr s = s ∨
      (nr ≠ 0 ∧ set_root_step caller nr s =
        { s with current_root := nr, accepted_roots := nr :: s.accepted_roots }) := by
  unfold set_root_step
  cases h : set_root caller nr s with
  | error e => exact Or.inl rfl
  | ok s' =>
    right
    rcases set_root_ok_iff.mp h with ⟨h0, _, _, rfl⟩
    exact ⟨h0, rfl⟩

theorem regInv_deploy {caller r : Nat} {s : Storage}
    (h : deploy caller r = .ok s) : RegInv s := by
  rcases deploy_ok_iff.mp h with ⟨hr, rfl⟩
  refine ⟨hr, ?_, ?_⟩ <;> simp [is_root_accepted, Ne.symm hr]

theorem regInv_step (caller nr : Nat) {s : Storage}
    (h : RegInv s) : RegInv (set_root_step caller nr s) := by
  rcases set_root_step_cases caller nr s with heq | ⟨h0, heq⟩
  · rw [heq]; exact h
  · rw [heq]
    refine ⟨h0, ?_, ?_⟩
    · simpa [is_root_accepted, Ne.symm h0] using h.2.1
    · simp [is_root_accepted]

theorem reachable_regInv {s : Storage} (h : Reachable s) : RegInv s := by
  induction h with
  | deployed caller r s hd => exact regInv_deploy hd
  | step caller nr s _ ih => exact regInv_step caller nr ih

end StarkmoatRegistry

/-- Claim C3: for every pair of non-zero, distinct field elements `r1`,
`r2`, deploying with initial root `r1` and then calling `set_root` as the
admin with `r2` succeeds; afterwards `get_current_root` returns `r2`, and
`is_root_accepted` returns `true` on both `r1` and `r2`. -/
theorem registry_rotation_happy_path (admin r1 r2 : Nat)
    (h1 : r1 ≠ 0) (h2 : r2 ≠ 0) (hne : r1 ≠ r2) :
    ∃ s1 s2, StarkmoatRegistry.deploy admin r1 = .ok s1 ∧
      StarkmoatRegistry.set_root admin r2 s1 = .ok s2 ∧
      StarkmoatRegistry.get_current_root s2 = r2 ∧
      StarkmoatRegistry.is_root_accepted s2 r1 = true ∧
      StarkmoatRegistry.is_root_accepted s2 r2 = true := by
  refine ⟨⟨admin, r1, [r1]⟩, ⟨admin, r2, [r2, r1]⟩, ?_, ?_, rfl, ?_, ?_⟩
  · exact StarkmoatRegistry.deploy_ok_iff.mpr ⟨h1, rfl⟩
  · exact StarkmoatRegistry.set_root_ok_iff.mpr ⟨h2, rfl, Ne.symm hne, rfl⟩
  · simp [StarkmoatRegistry.is_root_accepted]
  · simp [StarkmoatRegistry.is_root_accepted]

/-- Witness for C3 at `admin = 1`, `r1 = 111`, `r2 = 222` (the inputs of
the repository test `test_set_root_accepts_new_root_and_keeps_history`). -/
theorem registry_rotation_happy_path_witness :
    (111 : Nat) ≠ 0 ∧ (222 : Nat) ≠ 0 ∧ (111 : Nat) ≠ 222 ∧
    ∃ s1 s2, StarkmoatRegistry.deploy 1 111 = .ok s1 ∧
      StarkmoatRegistry.set_root 1 222 s1 = .ok s2 ∧
      StarkmoatRegistry.get_current_root s2 = 222 ∧
      StarkmoatRegistry.is_root_accepted s2 111 = true ∧
      StarkmoatRegistry.is_root_accepted s2 222 = true :=
  ⟨by decide, by decide, by decide,
    registry_rotation_happy_path 1 111 222 (by decide) (by decide) (by decide)⟩

/-- Claim C4, counterexample: the claim quantifies over every root value
`r`, but at `r = 0` a non-admin caller (caller 2, admin 1) is rejected by
the zero-root assertion `'root is zero'`, not by `'only admin'`
(`Unauthorized`), because `set_root` checks `new_root != 0` first. -/
theorem set_root_nonadmin_zero_counterexample :
    StarkmoatRegistry.set_root 2 0 ⟨1, 5, [5]⟩ = .error "root is zero" ∧
    StarkmoatRegistry.set_root 2 0 ⟨1, 5, [5]⟩ ≠ .error "only admin" := by
  unfold StarkmoatRegistry.set_root
  simp

/-- Claim C4 as amended: for every NON-ZERO root `r`, `set_root` called by
a non-admin fails with `'only admin'` (`Unauthorized`) and leaves the
state unchanged; for `r = 0` the call still fails (with the zero-root
error) and also leaves the state unchanged. -/
theorem set_root_nonadmin_unauthorized (caller r : Nat)
    (s : StarkmoatRegistry.Storage) (hc : caller ≠ s.admin) (hr : r ≠ 0) :
    StarkmoatRegistry.set_root caller r s = .error "only admin" ∧
    StarkmoatRegistry.set_root_step caller r s = s ∧
    StarkmoatRegistry.set_root_step caller 0 s = s := by
  have h1 : StarkmoatRegistry.set_root caller r s = .error "only admin" := by
    unfold StarkmoatRegistry.set_root
    simp [hr, hc]
  refine ⟨h1, ?_, ?_⟩
  · unfold StarkmoatRegistry.set_root_step
    rw [h1]
  · unfold StarkmoatRegistry.set_root_step StarkmoatRegistry.set_root
    simp

/-- Witness for the amended C4 at caller 2, root 7, admin 1. -/
theorem set_root_nonadmin_unauthorized_witness :
    (2 : Nat) ≠ (StarkmoatRegistry.Storage.mk 1 5 [5]).admin ∧ (7 : Nat) ≠ 0 ∧
    (StarkmoatRegistry.set_root 2 7 ⟨1, 5, [5]⟩ = .error "only admin" ∧
     StarkmoatRegistry.set_root_step 2 7 ⟨1, 5, [5]⟩ = ⟨1, 5, [5]⟩ ∧
     StarkmoatRegistry.set_root_step 2 0 ⟨1, 5, [5]⟩ = ⟨1, 5, [5]⟩) :=
  ⟨by decide, by decide,
    set_root_nonadmin_unauthorized 2 7 ⟨1, 5, [5]⟩ (by decide) (by decide)⟩

/-- Claim C5: deploying with root 0 fails with `'initial root is zero'`
(`InvalidRoot`); in any reachable state, an admin call with root 0 fails
with `'root is zero'` (`InvalidRoot`) and an admin call with the current
root fails with `'root unchanged'` (`NoOpRoot`); each failing call leaves
the registry state unchanged. -/
theorem registry_error_cases (caller : Nat) (s : StarkmoatRegistry.Storage)
    (hs : StarkmoatRegistry.Reachable s) :
    StarkmoatRegistry.deploy caller 0 = .error "initial root is zero" ∧
    StarkmoatRegistry.set_root s.admin 0 s = .error "root is zero" ∧
    StarkmoatRegistry.set_root s.admin s.current_root s = .error "root unchanged" ∧
    StarkmoatRegistry.set_root_step s.admin 0 s = s ∧
    StarkmoatRegistry.set_root_step s.admin s.current_root s = s := by
  have hcr : s.current_root ≠ 0 := (StarkmoatRegistry.reachable_regInv hs).1
  have hzero : StarkmoatRegistry.set_root s.admin 0 s = .error "root is zero" := by
    unfold StarkmoatRegistry.set_root
    simp
  have hnoop : StarkmoatRegistry.set_root s.admin s.current_root s =
      .error "root unchanged" := by
    unfold StarkmoatRegistry.set_root
    simp [hcr]
  refine ⟨by unfold StarkmoatRegistry.deploy; simp, hzero, hnoop, ?_, ?_⟩
  · unfold StarkmoatRegistry.set_root_step
    rw [hzero]
  · unfold StarkmoatRegistry.set_root_step
    rw [hnoop]

/-- Witness for C5 at the deployed state `⟨1, 5, [5]⟩`. -/
theorem registry_error_cases_witness :
    StarkmoatRegistry.Reachable ⟨1, 5, [5]⟩ ∧
    (StarkmoatRegistry.deploy 2 0 = .error "initial root is zero" ∧
     StarkmoatRegistry.set_root (StarkmoatRegistry.Storage.mk 1 5 [5]).admin 0 ⟨1, 5, [5]⟩ =
       .error "root is zero" ∧
     StarkmoatRegistry.set_root (StarkmoatRegistry.Storage.mk 1 5 [5]).admin
       (StarkmoatRegistry.Storage.mk 1 5 [5]).current_root ⟨1, 5, [5]⟩ =
       .error "root unchanged" ∧
     StarkmoatRegistry.set_root_step (StarkmoatRegistry.Storage.mk 1 5 [5]).admin 0
       ⟨1, 5, [5]⟩ = ⟨1, 5, [5]⟩ ∧
     StarkmoatRegistry.set_root_step (StarkmoatRegistry.Storage.mk 1 5 [5]).admin
       (StarkmoatRegistry.Storage.mk 1 5 [5]).current_root ⟨1, 5, [5]⟩ = ⟨1, 5, [5]⟩) :=
  have hr : StarkmoatRegistry.Reachable ⟨1, 5, [5]⟩ :=
    StarkmoatRegistry.Reachable.deployed 1 5 ⟨1, 5, [5]⟩ rfl
  ⟨hr, registry_error_cases 2 ⟨1, 5, [5]⟩ hr⟩

/-- Helper: one `set_root` attempt, successful or reverted, never removes
a root from the accepted set. -/
theorem is_root_accepted_step_mono (caller nr : Nat)
    {s : StarkmoatRegistry.Storage} {r : Nat}
    (h : StarkmoatRegistry.is_root_accepted s r = true) :
    StarkmoatRegistry.is_root_accepted
      (StarkmoatRegistry.set_root_step caller nr s) r = true := by
  rcases StarkmoatRegistry.set_root_step_cases caller nr s with heq | ⟨h0, heq⟩ <;>
    rw [heq]
  · exact h
  · simp only [StarkmoatRegistry.is_root_accepted] at h ⊢
    simp only [List.contains_cons, h, Bool.or_true]

/-- Claim C6: acceptance is monotonic — from any state in which a root `r`
is accepted, after any subsequent sequence of `set_root` calls
(successful or reverted, by arbitrary callers with arbitrary roots), `r`
is still accepted; no operation revokes a root. -/
theorem accepted_root_monotonic (s : StarkmoatRegistry.Storage) (r : Nat)
    (ops : List (Nat × Nat))
    (h : StarkmoatRegistry.is_root_accepted s r = true) :
    StarkmoatRegistry.is_root_accepted
      (ops.foldl (fun t p => StarkmoatRegistry.set_root_step p.1 p.2 t) s) r
      = true := by
  induction ops generalizing s with
  | nil => exact h
  | cons p ps ih =>
    exact ih (StarkmoatRegistry.set_root_step p.1 p.2 s)
      (is_root_accepted_step_mono p.1 p.2 h)

/-- Witness for C6: root 5 stays accepted across a successful rotation to
7 and a reverted non-admin attempt. -/
theorem accepted_root_monotonic_witness :
    StarkmoatRegistry.is_root_accepted ⟨1, 5, [5]⟩ 5 = true ∧
    StarkmoatRegistry.is_root_accepted
      ([(1, 7), (2, 9)].foldl
        (fun t p => StarkmoatRegistry.set_root_step p.1 p.2 t) ⟨1, 5, [5]⟩) 5
      = true :=
  ⟨by decide, accepted_root_monotonic ⟨1, 5, [5]⟩ 5 [(1, 7), (2, 9)] (by decide)⟩

/-- Claim C7: in every reachable registry state the current root is
non-zero, the zero root is not accepted, and the current root is
accepted; reachability is closed under all operations, so every
operation preserves this invariant. -/
theorem registry_state_invariant (s : StarkmoatRegistry.Storage)
    (hs : StarkmoatRegistry.Reachable s) :
    StarkmoatRegistry.get_current_root s ≠ 0 ∧
    StarkmoatRegistry.is_root_accepted s 0 = false ∧
    StarkmoatRegistry.is_root_accepted s (StarkmoatRegistry.get_current_root s)
      = true :=
  StarkmoatRegistry.reachable_regInv hs

/-- Witness for C7 at the deployed state `⟨1, 5, [5]⟩`. -/
theorem registry_state_invariant_witness :
    StarkmoatRegistry.Reachable ⟨1, 5, [5]⟩ ∧
    (StarkmoatRegistry.get_current_root ⟨1, 5, [5]⟩ ≠ 0 ∧
     StarkmoatRegistry.is_root_accepted ⟨1, 5, [5]⟩ 0 = false ∧
     StarkmoatRegistry.is_root_accepted ⟨1, 5, [5]⟩
       (StarkmoatRegistry.get_current_root ⟨1, 5, [5]⟩) = true) :=
  have hr : StarkmoatRegistry.Reachable ⟨1, 5, [5]⟩ :=
    StarkmoatRegistry.Reachable.deployed 1 5 ⟨1, 5, [5]⟩ rfl
  ⟨hr, registry_state_invariant ⟨1, 5, [5]⟩ hr⟩

/-- Claim C8: re-accepting a historical root succeeds — after deploying
with `r1` and rotating to `r2`, a further admin `set_root` back to `r1`
succeeds (no error although `r1` is already accepted), makes `r1` current
again, and leaves both roots accepted. -/
theorem set_root_reaccepts_historical_root (admin r1 r2 : Nat)
    (h1 : r1 ≠ 0) (h2 : r2 ≠ 0) (hne : r1 ≠ r2) :
    ∃ s1 s2 s3, StarkmoatRegistry.deploy admin r1 = .ok s1 ∧
      StarkmoatRegistry.set_root admin r2 s1 = .ok s2 ∧
      StarkmoatRegistry.set_root admin r1 s2 = .ok s3 ∧
      StarkmoatRegistry.get_current_root s3 = r1 ∧
      StarkmoatRegistry.is_root_accepted s3 r1 = true ∧
      StarkmoatRegistry.is_root_accepted s3 r2 = true := by
  refine ⟨⟨admin, r1, [r1]⟩, ⟨admin, r2, [r2, r1]⟩, ⟨admin, r1, [r1, r2, r1]⟩,
    ?_, ?_, ?_, rfl, ?_, ?_⟩
  · exact StarkmoatRegistry.deploy_ok_iff.mpr ⟨h1, rfl⟩
  · exact StarkmoatRegistry.set_root_ok_iff.mpr ⟨h2, rfl, Ne.symm hne, rfl⟩
  · exact StarkmoatRegistry.set_root_ok_iff.mpr ⟨h1, rfl, hne, rfl⟩
  · simp [StarkmoatRegistry.is_root_accepted]
  · simp [StarkmoatRegistry.is_root_accepted]

/-- Witness for C8 at `admin = 1`, `r1 = 111`, `r2 = 222`. -/
theorem set_root_reaccepts_historical_root_witness :
    (111 : Nat) ≠ 0 ∧ (222 : Nat) ≠ 0 ∧ (111 : Nat) ≠ 222 ∧
    ∃ s1 s2 s3, StarkmoatRegistry.deploy 1 111 = .ok s1 ∧
      StarkmoatRegistry.set_root 1 222 s1 = .ok s2 ∧
      StarkmoatRegistry.set_root 1 111 s2 = .ok s3 ∧
      StarkmoatRegistry.get_current_root s3 = 111 ∧
      StarkmoatRegistry.is_root_accepted s3 111 = true ∧
      StarkmoatRegistry.is_root_accepted s3 222 = true :=
  ⟨by decide, by decide, by decide,
    set_root_reaccepts_historical_root 1 111 222 (by decide) (by decide) (by decide)⟩

/-- Claim C10: in `set_root` the zero-root assertion precedes the admin
assertion — every caller, admin or not, supplying `new_root = 0` gets
`'root is zero'`; consequently the `'only admin'` error is only
observable for a non-zero `new_root`. -/
theorem set_root_zero_check_before_admin_check (caller r : Nat)
    (s : StarkmoatRegistry.Storage) :
    StarkmoatRegistry.set_root caller 0 s = .error "root is zero" ∧
    (StarkmoatRegistry.set_root caller r s = .error "only admin" → r ≠ 0) := by
  constructor
  · unfold StarkmoatRegistry.set_root
    simp
  · intro h hr
    subst hr
    unfold StarkmoatRegistry.set_root at h
    simp at h

/-- Witness for C10: a non-admin caller with root 0 hits the zero-root
error, and the observed `'only admin'` error at root 7 forces `7 ≠ 0`. -/
theorem set_root_zero_check_before_admin_check_witness :
    StarkmoatRegistry.set_root 2 0 ⟨1, 5, [5]⟩ = .error "root is zero" ∧
    (7 : Nat) ≠ 0 :=
  ⟨(set_root_zero_check_before_admin_check 2 0 ⟨1, 5, [5]⟩).1,
   (set_root_zero_check_before_admin_check 2 7 ⟨1, 5, [5]⟩).2 rfl⟩

/-- Claim C1: the replay-guard contract of `onAnonymousAction` — a
nullifier already in the used set is rejected with no submission attempt
and an unchanged set; an unused nullifier proceeds, is added to the set
exactly when `execute` returns successfully, and a throwing submission
leaves the set unchanged, so an immediate retry with the same nullifier
goes through. -/
theorem replay_guard_contract (used : List String) (n : String)
    (env : SubmitEnv) :
    (used.contains n = true →
      onAnonymousAction used n env = ⟨.replayBlocked, used, false⟩) ∧
    (used.contains n = false → env.argsPresent = true →
      (∀ tx, env.execute = .ok tx →
        onAnonymousAction used n env = ⟨.submitted tx, n :: used, true⟩) ∧
      (∀ e, env.execute = .error e →
        onAnonymousAction used n env = ⟨.txFailed, used, true⟩) ∧
      (∀ e env2 tx2, env.execute = .error e → env2.argsPresent = true →
        env2.execute = .ok tx2 →
        onAnonymousAction (onAnonymousAction used n env).used n env2 =
          ⟨.submitted tx2, n :: used, true⟩)) := by
  refine ⟨?_, ?_⟩
  · intro h
    have h' : n ∈ used := by simpa using h
    simp [onAnonymousAction, h']
  · intro hc ha
    have hc' : n ∉ used := by simpa using hc
    refine ⟨?_, ?_, ?_⟩
    · intro tx he
      simp [onAnonymousAction, hc', ha, he]
    · intro e he
      simp [onAnonymousAction, hc', ha, he]
    · intro e env2 tx2 he ha2 he2
      have hfail : onAnonymousAction used n env = ⟨.txFailed, used, true⟩ := by
        simp [onAnonymousAction, hc', ha, he]
      rw [hfail]
      simp [onAnonymousAction, hc', ha2, he2]

/-- Witness for C1: a blocked reuse, a successful submission that records
the nullifier, a rejected submission that records nothing, and the
successful retry after the rejection. -/
theorem replay_guard_contract_witness :
    onAnonymousAction ["0xaa"] "0xaa" ⟨true, .ok "0xt1"⟩ =
      ⟨.replayBlocked, ["0xaa"], false⟩ ∧
    onAnonymousAction [] "0xbb" ⟨true, .ok "0xt1"⟩ =
      ⟨.submitted "0xt1", ["0xbb"], true⟩ ∧
    onAnonymousAction [] "0xbb" ⟨true, .error "rejected"⟩ =
      ⟨.txFailed, [], true⟩ ∧
    onAnonymousAction (onAnonymousAction [] "0xbb" ⟨true, .error "rejected"⟩).used
      "0xbb" ⟨true, .ok "0xt2"⟩ = ⟨.submitted "0xt2", ["0xbb"], true⟩ :=
  ⟨(replay_guard_contract ["0xaa"] "0xaa" ⟨true, .ok "0xt1"⟩).1 (by decide),
   ((replay_guard_contract [] "0xbb" ⟨true, .ok "0xt1"⟩).2 (by decide) rfl).1
     "0xt1" rfl,
   ((replay_guard_contract [] "0xbb" ⟨true, .error "rejected"⟩).2 (by decide)
     rfl).2.1 "rejected" rfl,
   ((replay_guard_contract [] "0xbb" ⟨true, .error "rejected"⟩).2 (by decide)
     rfl).2.2 "rejected" ⟨true, .ok "0xt2"⟩ "0xt2" rfl rfl rfl⟩

/-- Claim C9: every value produced by `generateSecret` and every value
produced by `hashToFelt` — hence every derived leaf, action hash, and
nullifier — is strictly below the STARK prime. -/
theorem field_element_range_invariant (randomBytes : List Nat)
    (parts : List String) (secret domain action root actor actionHash : String) :
    generateSecret randomBytes < STARK_FIELD_PRIME ∧
    hashToFelt parts < STARK_FIELD_PRIME ∧
    deriveLeaf secret < STARK_FIELD_PRIME ∧
    deriveActionHash domain action root actor < STARK_FIELD_PRIME ∧
    deriveNullifier secret actionHash < STARK_FIELD_PRIME := by
  have hp : 0 < STARK_FIELD_PRIME := by decide
  exact ⟨Nat.mod_lt _ hp, Nat.mod_lt _ hp, Nat.mod_lt _ hp, Nat.mod_lt _ hp,
    Nat.mod_lt _ hp⟩

/-- Helper for the join equivalence: the separator-prefixed tail of a
joined list. -/
def joinTail : List String → String
  | [] => ""
  | q :: qs => "|" ++ q ++ joinTail qs

theorem foldl_mulAdd (l : List Nat) (a : Nat) :
    l.foldl (fun value byte => value * 256 + byte) a =
      a * 256 ^ l.length + beNat l := by
  induction l generalizing a with
  | nil => simp [beNat]
  | cons b bs ih =>
    simp only [List.foldl_cons, beNat, List.length_cons, ih (a * 256 + b)]
    ring

theorem bytesToBigInt_eq_beNat (bytes : List Nat) :
    bytesToBigInt bytes = beNat bytes := by
  unfold bytesToBigInt
  rw [foldl_mulAdd]
  simp

theorem jsJoin_foldl (ps : List String) (acc : String) :
    ps.foldl (fun a q => a ++ "|" ++ q) acc = acc ++ joinTail ps := by
  induction ps generalizing acc with
  | nil => simp [joinTail]
  | cons q qs ih =>
    rw [List.foldl_cons, ih (acc ++ "|" ++ q)]
    simp only [joinTail, String.append_assoc]

theorem append_joinTail (ps : List String) (p : String) :
    p ++ joinTail ps = joinParts (p :: ps) := by
  induction ps generalizing p with
  | nil => simp [joinTail, joinParts]
  | cons q qs ih =>
    simp only [joinTail, joinParts, ← ih q, String.append_assoc]

theorem jsJoin_eq_joinParts (parts : List String) :
    jsJoin "|" parts = joinParts parts := by
  cases parts with
  | nil => rfl
  | cons p ps => rw [jsJoin, jsJoin_foldl ps p, append_joinTail]

/-- Claim C2: the code's hash pipeline coincides with the spec's
reference `HashToField` on every ordered list of strings — joining with
`|`, SHA-256, big-endian digest interpretation, reduction modulo the
STARK prime — and the leaf, action hash, and nullifier are exactly
`HashToField` of `[secret]`, `[domain, action, root, actor]`, and
`[secret, action_hash]`. -/
theorem hash_pipeline_matches_spec (parts : List String)
    (secret domain action root actor actionHash : String) :
    hashToFelt parts = HashToField parts ∧
    deriveLeaf secret = HashToField [secret] ∧
    deriveActionHash domain action root actor =
      HashToField [domain, action, root, actor] ∧
    deriveNullifier secret actionHash = HashToField [secret, actionHash] := by
  have key : ∀ ps, hashToFelt ps = HashToField ps := by
    intro ps
    unfold hashToFelt HashToField
    rw [bytesToBigInt_eq_beNat, jsJoin_eq_joinParts]
  exact ⟨key parts, key [secret], key [domain, action, root, actor],
    key [secret, actionHash]⟩
